import Mathlib

/-!
Verification development for the bpm-sdk repository (Go).

The docker abstraction layer (pkg/docker/docker.go), the lifecycle handler
(pkg/plugin/docker_lifecycle.go), the upgrader, the parameter validator
(pkg/plugin/simple_parameter_validator.go), the template renderer
(pkg/template/template.go) and the plugin meta information are shallowly
embedded below.  The docker daemon is modelled as an explicit state record
over resource names; every engine operation is a pure function from a state
to a state together with the list of runtime calls it issued, mirroring the
Go control flow (query first, mutate only on divergence).
-/

namespace BpmSdk

/-- Membership of a string in a list of names (models presence of a resource
name in the docker daemon's stores). -/
def memb (x : String) : List String → Bool
  | [] => false
  | y :: ys => if y = x then true else memb x ys

/-- Insert a name unless it is already present (daemon-side effect of an
idempotent create/pull at name granularity). -/
def insertIfAbsent (x : String) (xs : List String) : List String :=
  if memb x xs then xs else x :: xs

/-- Remove every occurrence of a name (daemon-side effect of a remove). -/
def removeName (x : String) : List String → List String
  | [] => []
  | y :: ys => if y = x then removeName x ys else y :: removeName x ys

theorem memb_insertIfAbsent_self (x : String) (xs : List String) :
    memb x (insertIfAbsent x xs) = true := by
  unfold insertIfAbsent
  by_cases h : memb x xs = true
  · simp [h]
  · simp [h, memb]

theorem insertIfAbsent_of_memb {x : String} {xs : List String}
    (h : memb x xs = true) : insertIfAbsent x xs = xs := by
  simp [insertIfAbsent, h]

theorem memb_removeName_self (x : String) (xs : List String) :
    memb x (removeName x xs) = false := by
  induction xs with
  | nil => simp [removeName, memb]
  | cons y ys ih =>
      by_cases h : y = x
      · simp [removeName, h, ih]
      · simp [removeName, h, memb, ih]

theorem memb_removeName_of_ne {x y : String} (h : y ≠ x) (xs : List String) :
    memb y (removeName x xs) = memb y xs := by
  have hxy : ¬(x = y) := fun he => h he.symm
  induction xs with
  | nil => simp [removeName]
  | cons z zs ih =>
      by_cases hz : z = x
      · subst hz
        simp [removeName, memb, hxy, ih]
      · simp [removeName, hz, memb, ih, h, hxy]

theorem memb_insertIfAbsent_of_ne {x y : String} (h : y ≠ x) (xs : List String) :
    memb y (insertIfAbsent x xs) = memb y xs := by
  unfold insertIfAbsent
  by_cases hm : memb x xs = true
  · simp [hm]
  · have hxy : x ≠ y := fun he => h he.symm
    simp [hm, memb, hxy]

theorem memb_of_memb_insertIfAbsent {x y : String} {xs : List String}
    (h : memb y (insertIfAbsent x xs) = true) : y = x ∨ memb y xs = true := by
  by_cases he : y = x
  · exact Or.inl he
  · right
    rw [memb_insertIfAbsent_of_ne he xs] at h
    exact h

/-- Model of Go strings.HasPrefix s pre (string contents as character lists). -/
def strStartsWith (s pre : String) : Bool :=
  pre.data.isPrefixOf s.data

/-- Node.NamePrefix (pkg/node): the naming convention for all resources of a
node with the given id. -/
def namePrefixOf (id : String) : String :=
  "bpm-" ++ id ++ "-"

/-- BasicManager.prefixedName (pkg/docker/docker.go): applies the node's name
prefix `p` unless the name already carries it. -/
def prefixedName (p name : String) : String :=
  if strStartsWith name p then name else p ++ name

theorem isPrefixOf_append_self (l m : List Char) :
    l.isPrefixOf (l ++ m) = true := by
  induction l with
  | nil => simp [List.isPrefixOf]
  | cons a as ih => simp [List.isPrefixOf, ih]

theorem strStartsWith_append_self (p n : String) :
    strStartsWith (p ++ n) p = true := by
  unfold strStartsWith
  have : (p ++ n).data = p.data ++ n.data := by
    simp
  rw [this]
  exact isPrefixOf_append_self p.data n.data

theorem prefixedName_idem_general (p n : String) :
    prefixedName p (prefixedName p n) = prefixedName p n := by
  unfold prefixedName
  by_cases h : strStartsWith n p = true
  · simp [h]
  · simp [h, strStartsWith_append_self]

/-- C8: name-prefixing is idempotent: for every node id and every logical
name, applying prefixedName with the node's name prefix to an
already-prefixed name returns it unchanged. -/
theorem c8_prefixedName_idempotent (id n : String) :
    prefixedName (namePrefixOf id) (prefixedName (namePrefixOf id) n)
      = prefixedName (namePrefixOf id) n :=
  prefixedName_idem_general (namePrefixOf id) n

/-- docker.Container (pkg/docker/docker.go).  Mounts, ports, command and env
file only matter to the claims through the container's Name and Image, but
the mount list is kept because the lifecycle phases inspect it. -/
structure Mount where
  ty : String
  src : String
  dst : String
deriving DecidableEq, Repr

structure Container where
  Name : String
  Image : String
  EnvFilename : String
  Mounts : List Mount
  Cmd : List String
  CmdFile : String
  User : String
  CollectLogs : Bool
deriving DecidableEq, Repr

/-- The docker daemon's observable state: which image names are pulled,
which container names exist, which of them are running, which network and
volume names exist.  All names are daemon-side (already prefixed) names. -/
structure DockerState where
  images : List String
  containers : List String
  running : List String
  networks : List String
  volumes : List String
deriving DecidableEq, Repr

/-- One call issued to the docker runtime client, with the name argument it
carried. -/
inductive DockerCall where
  | imagePull (image : String)
  | containerInspect (name : String)
  | containerCreate (name : String)
  | containerStart (name : String)
  | containerStop (name : String)
  | containerRemove (name : String)
  | containerWait (name : String)
  | containerLogs (name : String)
  | networkInspect (name : String)
  | networkCreate (name : String)
  | networkRemove (name : String)
  | volumeInspect (name : String)
  | volumeRemove (name : String)
deriving DecidableEq, Repr

/-- A call is mutating when it changes daemon state; inspect/wait/logs calls
are pure queries. -/
def DockerCall.isMutating : DockerCall → Bool
  | .imagePull _ => true
  | .containerCreate _ => true
  | .containerStart _ => true
  | .containerStop _ => true
  | .containerRemove _ => true
  | .networkCreate _ => true
  | .networkRemove _ => true
  | .volumeRemove _ => true
  | _ => false

def DockerCall.isPull : DockerCall → Bool
  | .imagePull _ => true
  | _ => false

/-- The name (or image) argument the call carried to the runtime. -/
def DockerCall.arg : DockerCall → String
  | .imagePull s => s
  | .containerInspect s => s
  | .containerCreate s => s
  | .containerStart s => s
  | .containerStop s => s
  | .containerRemove s => s
  | .containerWait s => s
  | .containerLogs s => s
  | .networkInspect s => s
  | .networkCreate s => s
  | .networkRemove s => s
  | .volumeInspect s => s
  | .volumeRemove s => s

/-- BasicManager.doesContainerExist: ContainerInspect on the prefixed name,
"not found" normalized to false. -/
def doesContainerExist (p : String) (s : DockerState) (n : String) : Bool :=
  memb (prefixedName p n) s.containers

/-- BasicManager.IsContainerRunning: a non existing container is not
running. -/
def IsContainerRunning (p : String) (s : DockerState) (n : String) : Bool :=
  memb (prefixedName p n) s.running

/-- BasicManager.DoesNetworkExist: NetworkInspect on the raw network id. -/
def DoesNetworkExist (s : DockerState) (n : String) : Bool :=
  memb n s.networks

/-- BasicManager.doesVolumeExist: VolumeInspect on the prefixed name. -/
def doesVolumeExist (p : String) (s : DockerState) (n : String) : Bool :=
  memb (prefixedName p n) s.volumes

/-- BasicManager.NetworkExists (pkg/docker/docker.go:198): create the
network only when the inspect query says it is absent.  The network id is
passed to the runtime as given, without the node prefix. -/
def NetworkExists (s : DockerState) (networkID : String) :
    DockerState × List DockerCall :=
  if DoesNetworkExist s networkID then
    (s, [DockerCall.networkInspect networkID])
  else
    ({ s with networks := insertIfAbsent networkID s.networks },
     [DockerCall.networkInspect networkID, DockerCall.networkCreate networkID])

/-- BasicManager.NetworkAbsent (pkg/docker/docker.go:164): remove the
network only when it exists; the id is passed unprefixed. -/
def NetworkAbsent (s : DockerState) (networkID : String) :
    DockerState × List DockerCall :=
  if DoesNetworkExist s networkID then
    ({ s with networks := removeName networkID s.networks },
     [DockerCall.networkInspect networkID, DockerCall.networkRemove networkID])
  else
    (s, [DockerCall.networkInspect networkID])

/-- BasicManager.VolumeAbsent (pkg/docker/docker.go:180): remove the volume
(under its prefixed name) only when it exists. -/
def VolumeAbsent (p : String) (s : DockerState) (volumeID : String) :
    DockerState × List DockerCall :=
  if doesVolumeExist p s volumeID then
    ({ s with volumes := removeName (prefixedName p volumeID) s.volumes },
     [DockerCall.volumeInspect (prefixedName p volumeID),
      DockerCall.volumeRemove (prefixedName p volumeID)])
  else
    (s, [DockerCall.volumeInspect (prefixedName p volumeID)])

/-- BasicManager.ContainerStopped (pkg/docker/docker.go:116): stop the
container (prefixed name) only when it is running. -/
def ContainerStopped (p : String) (s : DockerState) (c : Container) :
    DockerState × List DockerCall :=
  if IsContainerRunning p s c.Name then
    ({ s with running := removeName (prefixedName p c.Name) s.running },
     [DockerCall.containerInspect (prefixedName p c.Name),
      DockerCall.containerStop (prefixedName p c.Name)])
  else
    (s, [DockerCall.containerInspect (prefixedName p c.Name)])

/-- BasicManager.ContainerAbsent (pkg/docker/docker.go:138): stop first,
then remove (with attached anonymous volumes) when the container exists. -/
def ContainerAbsent (p : String) (s : DockerState) (c : Container) :
    DockerState × List DockerCall :=
  let r1 := ContainerStopped p s c
  if doesContainerExist p r1.1 c.Name then
    ({ r1.1 with
        containers := removeName (prefixedName p c.Name) r1.1.containers,
        running := removeName (prefixedName p c.Name) r1.1.running },
     r1.2 ++ [DockerCall.containerInspect (prefixedName p c.Name),
              DockerCall.containerRemove (prefixedName p c.Name)])
  else
    (r1.1, r1.2 ++ [DockerCall.containerInspect (prefixedName p c.Name)])

/-- BasicManager.createContainer (pkg/docker/docker.go:419): registers the
container under its prefixed name.  The rendered mounts, ports, env and
command configuration do not enter the name-level daemon state. -/
def createContainer (p : String) (s : DockerState) (c : Container) :
    DockerState × List DockerCall :=
  ({ s with containers := insertIfAbsent (prefixedName p c.Name) s.containers },
   [DockerCall.containerCreate (prefixedName p c.Name)])

/-- BasicManager.ContainerRuns (pkg/docker/docker.go:244): pull the image
unconditionally, create the container when the inspect query says it does
not exist, start it when it is not running. -/
def ContainerRuns (p : String) (s : DockerState) (c : Container) :
    DockerState × List DockerCall :=
  let pn := prefixedName p c.Name
  let s1 : DockerState := { s with images := insertIfAbsent c.Image s.images }
  let t1 : List DockerCall :=
    [DockerCall.imagePull c.Image, DockerCall.containerInspect pn]
  let s2 := if doesContainerExist p s1 c.Name then s1 else (createContainer p s1 c).1
  let t2 := if doesContainerExist p s1 c.Name then t1 else t1 ++ (createContainer p s1 c).2
  let t3 := t2 ++ [DockerCall.containerInspect pn]
  if IsContainerRunning p s2 c.Name then
    (s2, t3)
  else
    ({ s2 with running := insertIfAbsent pn s2.running },
     t3 ++ [DockerCall.containerStart pn])

theorem NetworkExists_post (s : DockerState) (networkID : String) :
    DoesNetworkExist (NetworkExists s networkID).1 networkID = true := by
  unfold NetworkExists DoesNetworkExist
  by_cases h : memb networkID s.networks = true
  · simp [h]
  · simp [h, memb_insertIfAbsent_self]

theorem ContainerRuns_post (p : String) (s : DockerState) (c : Container) :
    memb c.Image ((ContainerRuns p s c).1).images = true
    ∧ memb (prefixedName p c.Name) ((ContainerRuns p s c).1).containers = true
    ∧ memb (prefixedName p c.Name) ((ContainerRuns p s c).1).running = true := by
  simp only [ContainerRuns, createContainer, doesContainerExist, IsContainerRunning]
  by_cases h1 : memb (prefixedName p c.Name) s.containers = true
  · by_cases h2 : memb (prefixedName p c.Name) s.running = true
    · simp [h1, h2, memb_insertIfAbsent_self]
    · simp [h1, h2, memb_insertIfAbsent_self]
  · by_cases h2 : memb (prefixedName p c.Name) s.running = true
    · simp [h1, h2, memb_insertIfAbsent_self]
    · simp [h1, h2, memb_insertIfAbsent_self]

theorem NetworkExists_of_exists {s : DockerState} {n : String}
    (h : DoesNetworkExist s n = true) :
    NetworkExists s n = (s, [DockerCall.networkInspect n]) := by
  simp [NetworkExists, h]

theorem ContainerRuns_of_satisfied {p : String} {s : DockerState} {c : Container}
    (hi : memb c.Image s.images = true)
    (hc : memb (prefixedName p c.Name) s.containers = true)
    (hr : memb (prefixedName p c.Name) s.running = true) :
    ContainerRuns p s c
      = (s, [DockerCall.imagePull c.Image,
             DockerCall.containerInspect (prefixedName p c.Name),
             DockerCall.containerInspect (prefixedName p c.Name)]) := by
  simp only [ContainerRuns, createContainer, doesContainerExist, IsContainerRunning]
  rw [insertIfAbsent_of_memb hi]
  simp [hc, hr]

theorem ContainerRuns_second_noop (p : String) (s : DockerState) (c : Container) :
    (ContainerRuns p (ContainerRuns p s c).1 c).1 = (ContainerRuns p s c).1
    ∧ (ContainerRuns p (ContainerRuns p s c).1 c).2
        = [DockerCall.imagePull c.Image,
           DockerCall.containerInspect (prefixedName p c.Name),
           DockerCall.containerInspect (prefixedName p c.Name)] := by
  obtain ⟨hi, hc, hr⟩ := ContainerRuns_post p s c
  rw [ContainerRuns_of_satisfied hi hc hr]
  exact ⟨rfl, rfl⟩

/-- C1 (amended): for the network resource the claim holds as stated: a
second NetworkExists call leaves the state untouched and issues only
queries.  For the container resource a second ContainerRuns call also
leaves the state untouched, but its runtime calls are only queries plus the
unconditional image pull: it performs no container create or start. -/
theorem c1_ensure_idempotent_amended (p : String) (s : DockerState)
    (networkID : String) (c : Container) :
    ((NetworkExists (NetworkExists s networkID).1 networkID).1
        = (NetworkExists s networkID).1
      ∧ ((NetworkExists (NetworkExists s networkID).1 networkID).2.all
          (fun call => !call.isMutating)) = true)
    ∧ ((ContainerRuns p (ContainerRuns p s c).1 c).1 = (ContainerRuns p s c).1
      ∧ ((ContainerRuns p (ContainerRuns p s c).1 c).2.all
          (fun call => !call.isMutating || call.isPull)) = true) := by
  refine ⟨⟨?_, ?_⟩, ?_, ?_⟩
  · rw [NetworkExists_of_exists (NetworkExists_post s networkID)]
  · rw [NetworkExists_of_exists (NetworkExists_post s networkID)]
    simp [DockerCall.isMutating]
  · exact (ContainerRuns_second_noop p s c).1
  · rw [(ContainerRuns_second_noop p s c).2]
    simp [DockerCall.isMutating, DockerCall.isPull]

def exampleContainer : Container :=
  { Name := "nodeA", Image := "acme/client:latest", EnvFilename := "",
    Mounts := [], Cmd := [], CmdFile := "", User := "", CollectLogs := false }

def emptyDocker : DockerState :=
  { images := [], containers := [], running := [], networks := [], volumes := [] }

/-- C1 counterexample: the second ContainerRuns invocation on the same spec
does issue a mutating runtime call (the unconditional image pull), so the
claim "zero mutating runtime calls (only queries)" fails for containers. -/
theorem c1_counterexample :
    (((ContainerRuns "bpm-n1-" (ContainerRuns "bpm-n1-" emptyDocker exampleContainer).1
        exampleContainer).2).any (fun call => call.isMutating)) = true := by
  decide

/-- C2 (amended): container mutating calls (create, start, stop, remove)
and volume removal carry the node-prefixed name; network create and remove
carry the logical network id without the node prefix. -/
theorem c2_prefix_discipline_amended (p : String) (s : DockerState)
    (c : Container) (volumeID networkID : String) :
    ((ContainerRuns p s c).2.all
        (fun call => !call.isMutating || call.isPull
          || call.arg == prefixedName p c.Name) = true)
    ∧ ((ContainerStopped p s c).2.all
        (fun call => !call.isMutating || call.arg == prefixedName p c.Name) = true)
    ∧ ((ContainerAbsent p s c).2.all
        (fun call => !call.isMutating || call.arg == prefixedName p c.Name) = true)
    ∧ ((VolumeAbsent p s volumeID).2.all
        (fun call => !call.isMutating || call.arg == prefixedName p volumeID) = true)
    ∧ ((NetworkExists s networkID).2.all (fun call => call.arg == networkID) = true)
    ∧ ((NetworkAbsent s networkID).2.all (fun call => call.arg == networkID) = true) := by
  refine ⟨?_, ?_, ?_, ?_, ?_, ?_⟩
  · simp only [ContainerRuns, createContainer]
    by_cases h1 : doesContainerExist p { s with images := insertIfAbsent c.Image s.images } c.Name = true
    · by_cases h2 : IsContainerRunning p { s with images := insertIfAbsent c.Image s.images } c.Name = true
      · simp [h1, h2, DockerCall.isMutating, DockerCall.isPull, DockerCall.arg]
      · simp [h1, h2, DockerCall.isMutating, DockerCall.isPull, DockerCall.arg]
    · by_cases h2 : IsContainerRunning p
          { s with images := insertIfAbsent c.Image s.images,
                   containers := insertIfAbsent (prefixedName p c.Name) s.containers } c.Name = true
      · simp [h1, h2, DockerCall.isMutating, DockerCall.isPull, DockerCall.arg]
      · simp [h1, h2, DockerCall.isMutating, DockerCall.isPull, DockerCall.arg]
  · unfold ContainerStopped
    by_cases h : IsContainerRunning p s c.Name = true
    · simp [h, DockerCall.isMutating, DockerCall.arg]
    · simp [h, DockerCall.isMutating, DockerCall.arg]
  · unfold ContainerAbsent ContainerStopped
    by_cases h : IsContainerRunning p s c.Name = true
    · by_cases h2 : doesContainerExist p
          { s with running := removeName (prefixedName p c.Name) s.running } c.Name = true
      · simp [h, h2, DockerCall.isMutating, DockerCall.arg]
      · simp [h, h2, DockerCall.isMutating, DockerCall.arg]
    · by_cases h2 : doesContainerExist p s c.Name = true
      · simp [h, h2, DockerCall.isMutating, DockerCall.arg]
      · simp [h, h2, DockerCall.isMutating, DockerCall.arg]
  · unfold VolumeAbsent
    by_cases h : doesVolumeExist p s volumeID = true
    · simp [h, DockerCall.isMutating, DockerCall.arg]
    · simp [h, DockerCall.isMutating, DockerCall.arg]
  · unfold NetworkExists
    by_cases h : DoesNetworkExist s networkID = true
    · simp [h, DockerCall.arg]
    · simp [h, DockerCall.arg]
  · unfold NetworkAbsent
    by_cases h : DoesNetworkExist s networkID = true
    · simp [h, DockerCall.arg]
    · simp [h, DockerCall.arg]

/-- C2 counterexample: creating the network "mynet" for node id "n1" issues
NetworkCreate with the unprefixed name "mynet", although the prefixed name
would differ, so the claim that every mutating operation applies the node's
prefix fails for networks. -/
theorem c2_counterexample :
    ((NetworkExists emptyDocker "mynet").2.contains
        (DockerCall.networkCreate "mynet") = true)
    ∧ prefixedName "bpm-n1-" "mynet" ≠ "mynet" := by
  decide

theorem memb_of_memb_removeName {x y : String} {xs : List String}
    (h : memb y (removeName x xs) = true) : memb y xs = true := by
  by_cases he : y = x
  · subst he; rw [memb_removeName_self] at h; cases h
  · rw [memb_removeName_of_ne he] at h; exact h

theorem memb_insertIfAbsent_of_memb {x y : String} {xs : List String}
    (h : memb y xs = true) : memb y (insertIfAbsent x xs) = true := by
  by_cases he : y = x
  · subst he; exact memb_insertIfAbsent_self y xs
  · rw [memb_insertIfAbsent_of_ne he]; exact h

theorem ContainerStopped_containers (p : String) (s : DockerState) (c : Container) :
    ((ContainerStopped p s c).1).containers = s.containers := by
  unfold ContainerStopped
  split <;> rfl

theorem ContainerStopped_not_running (p : String) (s : DockerState) (c : Container) :
    memb (prefixedName p c.Name) ((ContainerStopped p s c).1).running = false := by
  unfold ContainerStopped IsContainerRunning
  by_cases h : memb (prefixedName p c.Name) s.running = true
  · simp [h, memb_removeName_self]
  · simp [h]

theorem ContainerStopped_running_mono {p : String} {s : DockerState} {c : Container}
    {x : String} (h : memb x ((ContainerStopped p s c).1).running = true) :
    memb x s.running = true := by
  unfold ContainerStopped at h
  by_cases hr : IsContainerRunning p s c.Name = true
  · simp [hr] at h
    exact memb_of_memb_removeName h
  · simp [hr] at h
    exact h

theorem ContainerAbsent_removes (p : String) (s : DockerState) (c : Container) :
    memb (prefixedName p c.Name) ((ContainerAbsent p s c).1).containers = false
    ∧ memb (prefixedName p c.Name) ((ContainerAbsent p s c).1).running = false := by
  cases h2 : doesContainerExist p (ContainerStopped p s c).1 c.Name with
  | true => simp [ContainerAbsent, h2, memb_removeName_self]
  | false =>
      refine ⟨?_, ?_⟩
      · simp only [ContainerAbsent, h2, Bool.false_eq_true, if_false]
        simpa [doesContainerExist] using h2
      · simp only [ContainerAbsent, h2, Bool.false_eq_true, if_false]
        exact ContainerStopped_not_running p s c

theorem ContainerAbsent_containers_mono {p : String} {s : DockerState}
    {c : Container} {x : String}
    (h : memb x ((ContainerAbsent p s c).1).containers = true) :
    memb x s.containers = true := by
  rw [← ContainerStopped_containers p s c]
  cases h2 : doesContainerExist p (ContainerStopped p s c).1 c.Name with
  | true =>
      simp only [ContainerAbsent, h2, if_true] at h
      exact memb_of_memb_removeName h
  | false =>
      simp only [ContainerAbsent, h2, Bool.false_eq_true, if_false] at h
      exact h

theorem ContainerRuns_running_mono {p : String} {s : DockerState} {c : Container}
    {x : String} (h : memb x s.running = true) :
    memb x ((ContainerRuns p s c).1).running = true := by
  simp only [ContainerRuns, createContainer, doesContainerExist, IsContainerRunning]
  by_cases h1 : memb (prefixedName p c.Name) s.containers = true
  · by_cases h2 : memb (prefixedName p c.Name) s.running = true
    · simpa [h1, h2] using h
    · simp [h1, h2, memb_insertIfAbsent_of_memb h]
  · by_cases h2 : memb (prefixedName p c.Name) s.running = true
    · simpa [h1, h2] using h
    · simp [h1, h2, memb_insertIfAbsent_of_memb h]

theorem ContainerRuns_containers_of_ne {p : String} {s : DockerState}
    {c : Container} {x : String} (hne : x ≠ prefixedName p c.Name) :
    memb x ((ContainerRuns p s c).1).containers = memb x s.containers := by
  simp only [ContainerRuns, createContainer, doesContainerExist, IsContainerRunning]
  by_cases h1 : memb (prefixedName p c.Name) s.containers = true
  · by_cases h2 : memb (prefixedName p c.Name) s.running = true
    · simp [h1, h2]
    · simp [h1, h2]
  · by_cases h2 : memb (prefixedName p c.Name) s.running = true
    · simp [h1, h2, memb_insertIfAbsent_of_ne hne]
    · simp [h1, h2, memb_insertIfAbsent_of_ne hne]

/-- Result of one transient run: the Go function returns the captured
output together with an error that is nil exactly on exit status 0; a
failed wait returns the wait error with no output. -/
inductive TransientResult where
  | waitError
  | exitError (status : Int) (output : String)
  | success (output : String)
deriving DecidableEq, Repr

/-- BasicManager.RunTransientContainer (pkg/docker/docker.go:284): pull,
create and start like ContainerRuns, block on ContainerWait, read the
combined stdout/stderr, and remove the container via a deferred
ContainerAbsent that runs on every return path after the start.  The wait
outcome (none models a failed ContainerWait call) and the captured logs are
inputs of the model, since they are produced by the workload itself. -/
def RunTransientContainer (p : String) (s : DockerState) (c : Container)
    (waitResult : Option Int) (logs : String) : DockerState × TransientResult :=
  let r := ContainerRuns p s c
  let sFinal := (ContainerAbsent p r.1 c).1
  match waitResult with
  | none => (sFinal, TransientResult.waitError)
  | some status =>
      if status = 0 then (sFinal, TransientResult.success logs)
      else (sFinal, TransientResult.exitError status logs)

theorem RunTransientContainer_state (p : String) (s : DockerState) (c : Container)
    (waitResult : Option Int) (logs : String) :
    (RunTransientContainer p s c waitResult logs).1
      = (ContainerAbsent p (ContainerRuns p s c).1 c).1 := by
  unfold RunTransientContainer
  cases waitResult with
  | none => rfl
  | some st =>
      by_cases h : st = 0
      · simp [h]
      · simp [h]

/-- C6: the transient run removes the container before returning on every
path after the start, including a failed wait; when the wait succeeds the
call returns an error exactly for a non-zero exit status, and that error
carries the captured combined output. -/
theorem c6_runTransientContainer (p : String) (s : DockerState) (c : Container)
    (waitResult : Option Int) (logs : String) :
    (memb (prefixedName p c.Name)
        ((RunTransientContainer p s c waitResult logs).1).containers = false
      ∧ memb (prefixedName p c.Name)
        ((RunTransientContainer p s c waitResult logs).1).running = false)
    ∧ (waitResult = none →
        (RunTransientContainer p s c waitResult logs).2 = TransientResult.waitError)
    ∧ (∀ st, waitResult = some st →
        ((RunTransientContainer p s c waitResult logs).2
            = TransientResult.success logs ↔ st = 0)
        ∧ (st ≠ 0 → (RunTransientContainer p s c waitResult logs).2
            = TransientResult.exitError st logs)) := by
  refine ⟨?_, ?_, ?_⟩
  · rw [RunTransientContainer_state]
    exact ContainerAbsent_removes p (ContainerRuns p s c).1 c
  · intro h
    subst h
    rfl
  · intro st hst
    subst hst
    by_cases h : st = 0
    · subst h
      constructor
      · simp [RunTransientContainer]
      · intro hne; cases hne rfl
    · constructor
      · simp [RunTransientContainer, h]
      · intro _
        simp [RunTransientContainer, h]

/-- C6 witness: a concrete transient run with exit status 2 removes the
container and reports the exit error carrying the output. -/
theorem c6_witness :
    memb (prefixedName "bpm-n1-" exampleContainer.Name)
        ((RunTransientContainer "bpm-n1-" emptyDocker exampleContainer
            (some 2) "boom").1).containers = false
    ∧ (RunTransientContainer "bpm-n1-" emptyDocker exampleContainer
          (some 2) "boom").2 = TransientResult.exitError 2 "boom" :=
  ⟨(c6_runTransientContainer "bpm-n1-" emptyDocker exampleContainer
      (some 2) "boom").1.1,
   ((c6_runTransientContainer "bpm-n1-" emptyDocker exampleContainer
      (some 2) "boom").2.2 2 rfl).2 (by decide)⟩

/-- Removal phase of DockerUpgrader.Upgrade: ContainerAbsent over every
declared container, in declaration order. -/
def upgradeRemovePhase (p : String) (s : DockerState) (cs : List Container) :
    DockerState :=
  cs.foldl (fun st c => (ContainerAbsent p st c).1) s

/-- Start phase of DockerUpgrader.Upgrade: ContainerRuns over the snapshot
of previously running containers. -/
def upgradeStartPhase (p : String) (s : DockerState) (cs : List Container) :
    DockerState :=
  cs.foldl (fun st c => (ContainerRuns p st c).1) s

/-- DockerUpgrader.Upgrade: snapshot which declared containers are running,
remove all declared containers, then recreate and start only the snapshot. -/
def Upgrade (p : String) (s : DockerState) (cs : List Container) : DockerState :=
  let runningContainers := cs.filter (fun c => IsContainerRunning p s c.Name)
  upgradeStartPhase p (upgradeRemovePhase p s cs) runningContainers

theorem upgradeRemovePhase_cons (p : String) (s : DockerState) (d : Container)
    (rest : List Container) :
    upgradeRemovePhase p s (d :: rest)
      = upgradeRemovePhase p (ContainerAbsent p s d).1 rest := rfl

theorem upgradeStartPhase_cons (p : String) (s : DockerState) (d : Container)
    (rest : List Container) :
    upgradeStartPhase p s (d :: rest)
      = upgradeStartPhase p (ContainerRuns p s d).1 rest := rfl

theorem upgradeRemovePhase_containers_mono (p : String) (cs : List Container) :
    ∀ (s : DockerState) (x : String),
      memb x ((upgradeRemovePhase p s cs).containers) = true →
      memb x s.containers = true := by
  induction cs with
  | nil => intro s x h; exact h
  | cons d rest ih =>
      intro s x h
      rw [upgradeRemovePhase_cons] at h
      exact ContainerAbsent_containers_mono (ih _ x h)

theorem upgradeRemovePhase_not_containers (p : String) (cs : List Container)
    (s : DockerState) (x : String) (h : memb x s.containers = false) :
    memb x ((upgradeRemovePhase p s cs).containers) = false := by
  cases hm : memb x ((upgradeRemovePhase p s cs).containers) with
  | false => rfl
  | true =>
      rw [upgradeRemovePhase_containers_mono p cs s x hm] at h
      cases h

theorem upgradeRemovePhase_all_removed (p : String) (cs : List Container)
    (s : DockerState) : ∀ c ∈ cs,
      memb (prefixedName p c.Name) ((upgradeRemovePhase p s cs).containers) = false := by
  induction cs generalizing s with
  | nil => intro c hc; cases hc
  | cons d rest ih =>
      intro c hc
      rcases List.mem_cons.mp hc with he | hm
      · subst he
        rw [upgradeRemovePhase_cons]
        exact upgradeRemovePhase_not_containers p rest _ _
          (ContainerAbsent_removes p s c).1
      · rw [upgradeRemovePhase_cons]
        exact ih _ c hm

theorem upgradeStartPhase_running_mono (p : String) (cs : List Container) :
    ∀ (s : DockerState) (x : String), memb x s.running = true →
      memb x ((upgradeStartPhase p s cs).running) = true := by
  induction cs with
  | nil => intro s x h; exact h
  | cons d rest ih =>
      intro s x h
      rw [upgradeStartPhase_cons]
      exact ih _ x (ContainerRuns_running_mono h)

theorem upgradeStartPhase_starts (p : String) (cs : List Container) :
    ∀ (s : DockerState), ∀ c ∈ cs,
      memb (prefixedName p c.Name) ((upgradeStartPhase p s cs).running) = true := by
  induction cs with
  | nil => intro s c hc; cases hc
  | cons d rest ih =>
      intro s c hc
      rcases List.mem_cons.mp hc with he | hm
      · subst he
        rw [upgradeStartPhase_cons]
        exact upgradeStartPhase_running_mono p rest _ _ (ContainerRuns_post p s c).2.2
      · rw [upgradeStartPhase_cons]
        exact ih _ c hm

theorem upgradeStartPhase_containers_bound (p : String) (cs : List Container) :
    ∀ (s : DockerState) (x : String), memb x s.containers = false →
      (∀ c ∈ cs, prefixedName p c.Name ≠ x) →
      memb x ((upgradeStartPhase p s cs).containers) = false := by
  induction cs with
  | nil => intro s x h _; exact h
  | cons d rest ih =>
      intro s x h hn
      rw [upgradeStartPhase_cons]
      refine ih _ x ?_ (fun c hc => hn c (List.mem_cons.mpr (Or.inr hc)))
      rw [ContainerRuns_containers_of_ne
        (fun he => hn d (List.mem_cons.mpr (Or.inl rfl)) he.symm)]
      exact h

/-- C5: the default upgrade strategy snapshots the running declared
containers, then removes every declared container (after the removal phase
none of them exists), then recreates and starts exactly the snapshot: a
declared container that was running before is running afterwards, and a
declared container that was not running remains absent afterwards. -/
theorem c5_upgrade_default_strategy (p : String) (s : DockerState)
    (cs : List Container) (c : Container) (hc : c ∈ cs) :
    (memb (prefixedName p c.Name) ((upgradeRemovePhase p s cs).containers) = false)
    ∧ (IsContainerRunning p s c.Name = true →
        memb (prefixedName p c.Name) ((Upgrade p s cs).running) = true)
    ∧ (IsContainerRunning p s c.Name = false →
        memb (prefixedName p c.Name) ((Upgrade p s cs).containers) = false) := by
  refine ⟨upgradeRemovePhase_all_removed p cs s c hc, ?_, ?_⟩
  · intro hrun
    have hmem : c ∈ cs.filter (fun c => IsContainerRunning p s c.Name) :=
      List.mem_filter.mpr ⟨hc, hrun⟩
    exact upgradeStartPhase_starts p _ _ c hmem
  · intro hnot
    apply upgradeStartPhase_containers_bound
    · exact upgradeRemovePhase_all_removed p cs s c hc
    · intro c' hc'
      have hmf := List.mem_filter.mp hc'
      intro he
      rw [IsContainerRunning, he] at hmf
      rw [IsContainerRunning] at hnot
      rw [hmf.2] at hnot
      cases hnot

def upgradeContainerA : Container :=
  { Name := "alpha", Image := "acme/alpha:2", EnvFilename := "",
    Mounts := [], Cmd := [], CmdFile := "", User := "", CollectLogs := false }

def upgradeContainerB : Container :=
  { Name := "beta", Image := "acme/beta:2", EnvFilename := "",
    Mounts := [], Cmd := [], CmdFile := "", User := "", CollectLogs := false }

def upgradeStartState : DockerState :=
  { images := ["acme/alpha:1", "acme/beta:1"],
    containers := ["bpm-n1-alpha", "bpm-n1-beta"],
    running := ["bpm-n1-alpha"], networks := ["bpm"], volumes := [] }

/-- C5 witness: two declared containers of which only alpha runs; after the
upgrade alpha is running again and beta is absent. -/
theorem c5_witness :
    memb (prefixedName "bpm-n1-" upgradeContainerA.Name)
        ((Upgrade "bpm-n1-" upgradeStartState
            [upgradeContainerA, upgradeContainerB]).running) = true
    ∧ memb (prefixedName "bpm-n1-" upgradeContainerB.Name)
        ((Upgrade "bpm-n1-" upgradeStartState
            [upgradeContainerA, upgradeContainerB]).containers) = false := by
  constructor
  · exact (c5_upgrade_default_strategy "bpm-n1-" upgradeStartState
      [upgradeContainerA, upgradeContainerB] upgradeContainerA
      (by decide)).2.1 (by decide)
  · exact (c5_upgrade_default_strategy "bpm-n1-" upgradeStartState
      [upgradeContainerA, upgradeContainerB] upgradeContainerB
      (by decide)).2.2 (by decide)

/-- DockerLifecycleHandler.Status (pkg/plugin/docker_lifecycle.go:225): an
absent network short-circuits to incomplete, otherwise the declared
containers are counted by their running state.  The network name is the
node's docker-network string parameter. -/
def Status (p : String) (s : DockerState) (cs : List Container)
    (networkName : String) : String :=
  if DoesNetworkExist s networkName = true then
    let containersRunning := cs.countP (fun c => IsContainerRunning p s c.Name)
    if containersRunning = 0 then "stopped"
    else if containersRunning = cs.length then "running"
    else "incomplete"
  else "incomplete"

/-- C3: with the declared network absent the status is incomplete for any
number of running containers; with the network present the status is
stopped iff no declared container runs, running iff all of a non-empty
declaration run, and incomplete iff a proper non-zero subset runs. -/
theorem c3_status_aggregation (p : String) (s : DockerState)
    (cs : List Container) (net : String) :
    (DoesNetworkExist s net = false → Status p s cs net = "incomplete")
    ∧ (DoesNetworkExist s net = true →
        ((Status p s cs net = "stopped"
            ↔ cs.countP (fun c => IsContainerRunning p s c.Name) = 0)
        ∧ (Status p s cs net = "running"
            ↔ (cs.countP (fun c => IsContainerRunning p s c.Name) = cs.length
               ∧ 0 < cs.length))
        ∧ (Status p s cs net = "incomplete"
            ↔ (0 < cs.countP (fun c => IsContainerRunning p s c.Name)
               ∧ cs.countP (fun c => IsContainerRunning p s c.Name) < cs.length)))) := by
  constructor
  · intro h
    simp [Status, h]
  · intro h
    have hle : cs.countP (fun c => IsContainerRunning p s c.Name) ≤ cs.length :=
      List.countP_le_length _
    simp only [Status, h, if_true]
    set K := cs.countP (fun c => IsContainerRunning p s c.Name) with hKdef
    by_cases hK0 : K = 0
    · rw [if_pos hK0]
      refine ⟨iff_of_true rfl hK0, ?_, ?_⟩
      · refine iff_of_false (by decide) ?_
        rintro ⟨h1, h2⟩
        omega
      · refine iff_of_false (by decide) ?_
        rintro ⟨h1, _⟩
        omega
    · by_cases hKN : K = cs.length
      · rw [if_neg hK0, if_pos hKN]
        refine ⟨iff_of_false (by decide) hK0, ?_, ?_⟩
        · exact iff_of_true rfl ⟨hKN, by omega⟩
        · refine iff_of_false (by decide) ?_
          rintro ⟨_, h2⟩
          omega
      · rw [if_neg hK0, if_neg hKN]
        refine ⟨iff_of_false (by decide) hK0, ?_, ?_⟩
        · refine iff_of_false (by decide) ?_
          rintro ⟨h1, _⟩
          exact hKN h1
        · exact iff_of_true rfl ⟨by omega, by omega⟩

/-- C3 witness: with the network present and one of two declared containers
running, the status is incomplete. -/
theorem c3_witness :
    Status "bpm-n1-" upgradeStartState [upgradeContainerA, upgradeContainerB] "bpm"
      = "incomplete" := by
  have h := (c3_status_aggregation "bpm-n1-" upgradeStartState
      [upgradeContainerA, upgradeContainerB] "bpm").2 (by decide)
  exact h.2.2.mpr (by decide)

/-- Go path.Join of the node directory and the relative config path, at the
granularity the renderer needs: equal inputs resolve to the same output
path. -/
def pathJoin (a b : String) : String := a ++ "/" ++ b

/-- ConfigFileRendered (pkg/template/template.go:31): resolve the output
path under the node directory; if a file already exists there, skip with no
error; otherwise render the template against the data and write the result.
The filesystem is an association list from paths to file contents, and the
template engine (text/template with the notLast helper) is the pure
function `render`, as the spec treats rendering internals as external. -/
def ConfigFileRendered {δ : Type} (render : String → δ → String)
    (fs : List (String × String)) (nodeDir filename templateContent : String)
    (data : δ) : List (String × String) :=
  let outputFilename := pathJoin nodeDir filename
  match fs.lookup outputFilename with
  | some _ => fs
  | none => (outputFilename, render templateContent data) :: fs

/-- C4: rendering never overwrites: when a file exists at the resolved
path the call returns the filesystem unchanged for every template and data;
when it is absent, the first call writes the rendered content and a second
call at the same path, with any other template, data and even rendering
function, leaves the filesystem (hence the original content) unchanged. -/
theorem c4_render_never_overwrites {δ₁ δ₂ : Type}
    (render₁ : String → δ₁ → String) (render₂ : String → δ₂ → String)
    (fs : List (String × String)) (dir f tpl₁ tpl₂ : String)
    (d₁ : δ₁) (d₂ : δ₂) :
    (∀ C, fs.lookup (pathJoin dir f) = some C →
        ConfigFileRendered render₁ fs dir f tpl₁ d₁ = fs)
    ∧ (fs.lookup (pathJoin dir f) = none →
        ((ConfigFileRendered render₁ fs dir f tpl₁ d₁).lookup (pathJoin dir f)
            = some (render₁ tpl₁ d₁)
        ∧ ConfigFileRendered render₂
            (ConfigFileRendered render₁ fs dir f tpl₁ d₁) dir f tpl₂ d₂
          = ConfigFileRendered render₁ fs dir f tpl₁ d₁)) := by
  constructor
  · intro C hC
    simp only [ConfigFileRendered]
    rw [hC]
  · intro hnone
    simp only [ConfigFileRendered]
    rw [hnone]
    constructor
    · simp [List.lookup]
    · simp [List.lookup]

/-- C4 witness: on an empty filesystem the first render writes the rendered
content and a second render with a different template, data and renderer
leaves the file untouched. -/
theorem c4_witness :
    ((ConfigFileRendered (fun t (_ : Unit) => t) [] "/nodes/n1" "app.toml" "A" ()).lookup
        (pathJoin "/nodes/n1" "app.toml") = some "A")
    ∧ (ConfigFileRendered (fun t (_ : Unit) => t ++ "!")
        (ConfigFileRendered (fun t (_ : Unit) => t) [] "/nodes/n1" "app.toml" "A" ())
        "/nodes/n1" "app.toml" "B" ()
      = ConfigFileRendered (fun t (_ : Unit) => t) [] "/nodes/n1" "app.toml" "A" ()) :=
  (c4_render_never_overwrites (fun t (_ : Unit) => t) (fun t (_ : Unit) => t ++ "!")
    [] "/nodes/n1" "app.toml" "A" "B" () ()).2 rfl

def ParameterTypeBool : String := "bool"

def ParameterTypeString : String := "string"

/-- plugin.Parameter (pkg/plugin/meta.go); the Go fields Type and Default
are named ty and dflt here. -/
structure Parameter where
  ty : String
  name : String
  description : String
  mandatory : Bool
  dflt : String
deriving DecidableEq, Repr

/-- Go map access at a string key; maps are unique-key association lists. -/
def mapLookup {β : Type} (k : String) : List (String × β) → Option β
  | [] => none
  | (q, v) :: rest => if q = k then some v else mapLookup k rest

/-- node.Node (pkg/node/node.go): the descriptor fields the validator and
the engine read. -/
structure Node where
  ID : String
  PluginName : String
  StrParameters : List (String × String)
  BoolParameters : List (String × Bool)
  Version : String
deriving DecidableEq, Repr

/-- One iteration of the loop body of
SimpleParameterValidator.ValidateParameters
(pkg/plugin/simple_parameter_validator.go:17): the error this parameter
produces, if any. -/
def validateParameter (currentNode : Node) (parameter : Parameter) : Option String :=
  if parameter.ty = ParameterTypeBool then
    match mapLookup parameter.name currentNode.BoolParameters with
    | some _ => none
    | none => some ("the parameter \"" ++ parameter.name ++ "\" is missing")
  else if parameter.ty = ParameterTypeString then
    match mapLookup parameter.name currentNode.StrParameters with
    | none => some ("the parameter \"" ++ parameter.name ++ "\" is missing")
    | some value =>
        if value = "" then
          if parameter.mandatory then
            some ("the mandatory parameter \"" ++ parameter.name ++ "\" is empty")
          else if parameter.dflt ≠ "" then
            some ("the parameter \"" ++ parameter.name
              ++ "\" is empty but it should have a default")
          else none
        else none
  else none

/-- SimpleParameterValidator.ValidateParameters: returns the first
parameter error in declaration order, or success. -/
def ValidateParameters (pluginParameters : List Parameter)
    (currentNode : Node) : Except String Unit :=
  match pluginParameters with
  | [] => Except.ok ()
  | parameter :: rest =>
      match validateParameter currentNode parameter with
      | some e => Except.error e
      | none => ValidateParameters rest currentNode

theorem ValidateParameters_error_of_mem {ps : List Parameter} {n : Node}
    {q : Parameter} (hq : q ∈ ps) (he : validateParameter n q ≠ none) :
    ∃ e, ValidateParameters ps n = Except.error e := by
  induction ps with
  | nil => cases hq
  | cons r rest ih =>
      unfold ValidateParameters
      cases hr : validateParameter n r with
      | some e => exact ⟨e, rfl⟩
      | none =>
          rcases List.mem_cons.mp hq with heq | hm
          · subst heq
            rw [hr] at he
            cases he rfl
          · exact ih hm

theorem validateParameter_bool_missing {n : Node} {p : Parameter}
    (hty : p.ty = ParameterTypeBool)
    (h : mapLookup p.name n.BoolParameters = none) :
    validateParameter n p
      = some ("the parameter \"" ++ p.name ++ "\" is missing") := by
  unfold validateParameter
  simp [hty, h]

theorem validateParameter_string_missing {n : Node} {p : Parameter}
    (hty : p.ty = ParameterTypeString)
    (h : mapLookup p.name n.StrParameters = none) :
    validateParameter n p
      = some ("the parameter \"" ++ p.name ++ "\" is missing") := by
  have hne : ParameterTypeString ≠ ParameterTypeBool := by decide
  unfold validateParameter
  simp [hty, hne, h]

theorem validateParameter_string_empty_mandatory {n : Node} {p : Parameter}
    (hty : p.ty = ParameterTypeString) (hm : p.mandatory = true)
    (h : mapLookup p.name n.StrParameters = some "") :
    validateParameter n p
      = some ("the mandatory parameter \"" ++ p.name ++ "\" is empty") := by
  have hne : ParameterTypeString ≠ ParameterTypeBool := by decide
  unfold validateParameter
  simp [hty, hne, h, hm]

theorem validateParameter_string_ok {n : Node} {p : Parameter} {v : String}
    (hty : p.ty = ParameterTypeString)
    (h : mapLookup p.name n.StrParameters = some v) (hv : v ≠ "") :
    validateParameter n p = none := by
  have hne : ParameterTypeString ≠ ParameterTypeBool := by decide
  unfold validateParameter
  simp [hty, hne, h, hv]

/-- C7: a schema with one mandatory string parameter rejects a descriptor
whose string map lacks the key and accepts one carrying a non-empty value;
in any schema containing the parameter, a missing or empty mandatory string
parameter is rejected, as is a missing mandatory bool parameter. -/
theorem c7_mandatory_string_validation (p : Parameter) (n : Node)
    (hty : p.ty = ParameterTypeString) (hm : p.mandatory = true) :
    (mapLookup p.name n.StrParameters = none →
        ∃ e, ValidateParameters [p] n = Except.error e)
    ∧ (∀ v, mapLookup p.name n.StrParameters = some v → v ≠ "" →
        ValidateParameters [p] n = Except.ok ())
    ∧ (∀ ps : List Parameter, p ∈ ps →
        (mapLookup p.name n.StrParameters = none
          ∨ mapLookup p.name n.StrParameters = some "") →
        ∃ e, ValidateParameters ps n = Except.error e)
    ∧ (∀ (ps : List Parameter) (q : Parameter), q ∈ ps →
        q.ty = ParameterTypeBool → q.mandatory = true →
        mapLookup q.name n.BoolParameters = none →
        ∃ e, ValidateParameters ps n = Except.error e) := by
  refine ⟨?_, ?_, ?_, ?_⟩
  · intro hnone
    refine ValidateParameters_error_of_mem (List.mem_singleton.mpr rfl) ?_
    rw [validateParameter_string_missing hty hnone]
    exact Option.some_ne_none _
  · intro v hv hvne
    unfold ValidateParameters
    rw [validateParameter_string_ok hty hv hvne]
    rfl
  · intro ps hps hcase
    refine ValidateParameters_error_of_mem hps ?_
    rcases hcase with hc | hc
    · rw [validateParameter_string_missing hty hc]
      exact Option.some_ne_none _
    · rw [validateParameter_string_empty_mandatory hty hm hc]
      exact Option.some_ne_none _
  · intro ps q hqs hqty _ hqnone
    refine ValidateParameters_error_of_mem hqs ?_
    rw [validateParameter_bool_missing hqty hqnone]
    exact Option.some_ne_none _

def mandatoryStringParam : Parameter :=
  { ty := "string", name := "addr", description := "the node address",
    mandatory := true, dflt := "" }

def nodeNoAddr : Node :=
  { ID := "n1", PluginName := "test", StrParameters := [],
    BoolParameters := [], Version := "1.0.0" }

def nodeWithAddr : Node :=
  { ID := "n1", PluginName := "test", StrParameters := [("addr", "1.2.3.4")],
    BoolParameters := [], Version := "1.0.0" }

/-- C7 witness: the mandatory address schema rejects a descriptor missing
the key and accepts one carrying a non-empty value. -/
theorem c7_witness :
    (∃ e, ValidateParameters [mandatoryStringParam] nodeNoAddr
        = Except.error e)
    ∧ ValidateParameters [mandatoryStringParam] nodeWithAddr
        = Except.ok () := by
  constructor
  · exact (c7_mandatory_string_validation mandatoryStringParam nodeNoAddr
      rfl rfl).1 rfl
  · exact (c7_mandatory_string_validation mandatoryStringParam nodeWithAddr
      rfl rfl).2.1 "1.2.3.4" rfl (by decide)

/-- The amended C10 rejection condition, in the claim's vocabulary: a
declared bool parameter with no entry in the bool map, or a declared string
parameter that is missing from the string map or present with an empty
value while being mandatory or carrying a non-empty default. -/
def rejectsParameter (n : Node) (p : Parameter) : Prop :=
  (p.ty = ParameterTypeBool ∧ mapLookup p.name n.BoolParameters = none)
  ∨ (p.ty = ParameterTypeString ∧
      (mapLookup p.name n.StrParameters = none
       ∨ (mapLookup p.name n.StrParameters = some ""
          ∧ (p.mandatory = true ∨ p.dflt ≠ ""))))

instance (n : Node) (p : Parameter) : Decidable (rejectsParameter n p) := by
  unfold rejectsParameter
  infer_instance

theorem validateParameter_none_iff (n : Node) (p : Parameter) :
    validateParameter n p = none ↔ ¬ rejectsParameter n p := by
  have hbs : ParameterTypeBool ≠ ParameterTypeString := by decide
  have hsb : ParameterTypeString ≠ ParameterTypeBool := by decide
  unfold validateParameter rejectsParameter
  by_cases hb : p.ty = ParameterTypeBool
  · cases hm : mapLookup p.name n.BoolParameters with
    | some v => simp [hb, hbs, hm]
    | none => simp [hb, hbs, hm]
  · by_cases hs : p.ty = ParameterTypeString
    · cases hm : mapLookup p.name n.StrParameters with
      | none => simp [hs, hsb, hm]
      | some v =>
          by_cases hv : v = ""
          · subst hv
            by_cases hmand : p.mandatory = true
            · simp [hs, hsb, hm, hmand]
            · by_cases hd : p.dflt = ""
              · simp [hs, hsb, hm, hmand, hd]
              · simp [hs, hsb, hm, hmand, hd]
          · simp [hs, hsb, hm, hv]
    · simp [hb, hs]

/-- C10 (amended): validation succeeds exactly when no declared parameter
is rejected: an error is returned iff some declared bool parameter has no
entry in the bool map, or some declared string parameter is missing from
the string map, or is present with an empty value while being mandatory or
carrying a non-empty default. -/
theorem c10_validate_characterization (ps : List Parameter) (n : Node) :
    ValidateParameters ps n = Except.ok ()
      ↔ ∀ p ∈ ps, ¬ rejectsParameter n p := by
  induction ps with
  | nil => simp [ValidateParameters]
  | cons q rest ih =>
      unfold ValidateParameters
      cases hq : validateParameter n q with
      | some e =>
          have hrej : rejectsParameter n q := by
            by_contra hnot
            have hno := (validateParameter_none_iff n q).mpr hnot
            rw [hq] at hno
            cases hno
          refine iff_of_false (by simp) ?_
          intro hall
          exact (hall q (List.mem_cons_self q rest)) hrej
      | none =>
          have hq' : ¬ rejectsParameter n q := (validateParameter_none_iff n q).mp hq
          rw [ih]
          constructor
          · intro hall p hp
            rcases List.mem_cons.mp hp with he | hm
            · subst he; exact hq'
            · exact hall p hm
          · intro hall p hp
            exact hall p (List.mem_cons.mpr (Or.inr hp))

/-- C10 witness: the characterization applied to a concrete accepting
descriptor. -/
theorem c10_witness :
    ValidateParameters [mandatoryStringParam] nodeWithAddr = Except.ok () :=
  (c10_validate_characterization [mandatoryStringParam] nodeWithAddr).mpr
    (by decide)

/-- The rejection condition exactly as claim C10 states it: a declared
parameter with no entry of its name in the corresponding map, or a declared
non-mandatory string parameter present with an empty value whose schema
default is non-empty.  It omits the mandatory-and-empty case. -/
def c10ClaimRejects (n : Node) (p : Parameter) : Prop :=
  (p.ty = ParameterTypeBool ∧ mapLookup p.name n.BoolParameters = none)
  ∨ (p.ty = ParameterTypeString ∧ mapLookup p.name n.StrParameters = none)
  ∨ (p.ty = ParameterTypeString ∧ p.mandatory = false
     ∧ mapLookup p.name n.StrParameters = some "" ∧ p.dflt ≠ "")

instance (n : Node) (p : Parameter) : Decidable (c10ClaimRejects n p) := by
  unfold c10ClaimRejects
  infer_instance

def nodeEmptyAddr : Node :=
  { ID := "n1", PluginName := "test", StrParameters := [("addr", "")],
    BoolParameters := [], Version := "1.0.0" }

/-- C10 counterexample: with one mandatory string parameter present but
empty, none of the error conditions stated by the claim applies, so the
claim predicts success, yet validation returns an error: the code also
rejects an empty value of a mandatory string parameter. -/
theorem c10_counterexample :
    (∀ p ∈ [mandatoryStringParam], ¬ c10ClaimRejects nodeEmptyAddr p)
    ∧ ValidateParameters [mandatoryStringParam] nodeEmptyAddr
        = Except.error "the mandatory parameter \"addr\" is empty" := by
  constructor
  · decide
  · rfl

def SupportsTest : String := "test"

def SupportsUpgrade : String := "upgrade"

def SupportsIdentity : String := "identity"

/-- plugin.MetaInfo (pkg/plugin/meta.go). -/
structure MetaInfo where
  name : String
  version : String
  description : String
  protocolVersion : String
  parameters : List Parameter
  supported : List String
deriving DecidableEq, Repr

/-- The concrete capability implementations the docker plugin wires; the
capability slots of DockerPlugin hold Go interface values, nil when the
capability is not backed. -/
structure SimpleParameterValidator where
  pluginParameters : List Parameter

structure FileConfigurator where
  configFilesAndTemplates : List (String × String)

structure DockerLifecycleHandler where
  containers : List Container

structure DockerUpgrader where
  containers : List Container

structure IdentityCreator where
  createIdentity : Node → Except String Unit

structure Tester where
  test : Node → Bool

/-- plugin.DockerPlugin (structural embedding of the capability
interfaces, each slot nilable). -/
structure DockerPlugin where
  parameterValidator : Option SimpleParameterValidator
  identityCreator : Option IdentityCreator
  configurator : Option FileConfigurator
  lifecycleHandler : Option DockerLifecycleHandler
  upgrader : Option DockerUpgrader
  tester : Option Tester
  meta : MetaInfo

/-- DockerPlugin.Meta: determines the supported optional capabilities on
the fly from the wired slots, on every query. -/
def DockerPlugin.Meta (d : DockerPlugin) : MetaInfo :=
  let supported : List String := []
  let supported := if d.tester.isSome then supported ++ [SupportsTest] else supported
  let supported := if d.upgrader.isSome then supported ++ [SupportsUpgrade] else supported
  let supported := if d.identityCreator.isSome then supported ++ [SupportsIdentity] else supported
  { d.meta with supported := supported }

/-- NewDockerPlugin: wires the default implementations; identity creator
and tester stay nil, the upgrader is the default DockerUpgrader, and the
supported list in the stored meta is left empty because Meta recomputes
it. -/
def NewDockerPlugin (name version description : String)
    (parameters : List Parameter) (templates : List (String × String))
    (containers : List Container) : DockerPlugin :=
  let dockerParameters : List Parameter :=
    [{ ty := ParameterTypeString, name := "docker-network",
       description := "If set, the node will be spun up in this docker network. The network will be created automatically if it does not exist",
       mandatory := false, dflt := "bpm" },
     { ty := ParameterTypeString, name := "data-dir",
       description := "The directory under which the nodes data will be saved. Values that do not start with / will be relative to the node directory",
       mandatory := false, dflt := "data" },
     { ty := ParameterTypeString, name := "monitoring-pack",
       description := "Enables sending monitoring data to an endpoint using settings from the monitoring pack (a *.tar.gz file)",
       mandatory := false, dflt := "" }]
  let meta : MetaInfo :=
    { name := name, version := version, description := description,
      protocolVersion := "1.2.0",
      parameters := dockerParameters ++ parameters, supported := [] }
  { parameterValidator := some { pluginParameters := meta.parameters },
    identityCreator := none,
    configurator := some { configFilesAndTemplates := templates },
    lifecycleHandler := some { containers := containers },
    upgrader := some { containers := containers },
    tester := none,
    meta := meta }

/-- C9: every Meta query computes the supported capability set from the
actually wired slots: test is advertised iff the tester slot is non-nil,
upgrade iff the upgrader slot is non-nil, identity iff the identity
creator slot is non-nil, whatever supported list the stored meta record
carries. -/
theorem c9_meta_supported_computed (d : DockerPlugin) :
    ((DockerPlugin.Meta d).supported.contains SupportsTest = d.tester.isSome)
    ∧ ((DockerPlugin.Meta d).supported.contains SupportsUpgrade = d.upgrader.isSome)
    ∧ ((DockerPlugin.Meta d).supported.contains SupportsIdentity
        = d.identityCreator.isSome) := by
  cases ht : d.tester <;> cases hu : d.upgrader <;> cases hi : d.identityCreator <;>
    simp [DockerPlugin.Meta, ht, hu, hi,
      SupportsTest, SupportsUpgrade, SupportsIdentity]

end BpmSdk
